import Mathlib

/-!
Verification of the validity/nullity extraction kernels of
`cpp/src/arrow/compute/kernels/scalar_validity.cc`.

The C++ file defines two scalar-compute operators, `IsValidOperator` and
`IsNullOperator`, each with a scalar overload and an array overload, together
with the registration helper `MakeFunction` and the registry entry point
`RegisterScalarValidity`.

Shallow embedding choices:
- the memory of a bitmap buffer is modelled as a total function `Nat → Bool`
  giving the value of each bit of the allocation (bit `8*i + j` is bit `j`
  of byte `i`);
- `ArrayData` keeps the fields the kernels read: `length`, `offset`,
  `null_count` (an `Int`, as in C++ where `-1` means "not computed"),
  and `buffers[0]`, the optional null-indicator bitmap;
- the output `ArrayData` of `is_valid` receives in `buffers[1]` either the
  indicator buffer of the input itself (`OutBuffer.sharedWhole`, for
  `out->buffers[1] = arr.buffers[0]`), a slice of it
  (`OutBuffer.sharedSlice byteOffset sizeBytes`, for
  `SliceBuffer(arr.buffers[0], byteOffset, sizeBytes)`), or a freshly
  allocated bitmap (`OutBuffer.allocated`); the constructor records the
  aliasing/allocation behaviour that the claims are about;
- `KernelContext.allocateBitmap` models `ctx->AllocateBitmap`, returning
  either a fresh bitmap or an allocator error of an abstract type `ε`;
  `KERNEL_RETURN_IF_ERROR` becomes propagation through `Except ε`;
- the result of each array operator carries a `ret` tag recording which C++
  `return` statement produced it, so that reachability claims can be stated.
-/

/-- Bit-addressable content of a bitmap buffer. -/
abbrev Bitmap := Nat → Bool

/-- `BitUtil::SetBitsTo(bits, start_offset, length, bits_are_set)`:
set `length` consecutive bits starting at `start_offset` to the constant. -/
def SetBitsTo (bits : Bitmap) (start_offset length : Nat) (bits_are_set : Bool) : Bitmap :=
  fun j => if start_offset ≤ j ∧ j < start_offset + length then bits_are_set else bits j

/-- `internal::CopyBitmap(data, offset, length, dest, dest_offset)`:
copy `length` bits of `data` starting at bit `offset` into `dest` starting
at bit `dest_offset`. -/
def CopyBitmap (data : Bitmap) (offset length : Nat) (dest : Bitmap) (dest_offset : Nat) :
    Bitmap :=
  fun j =>
    if dest_offset ≤ j ∧ j < dest_offset + length then data (offset + (j - dest_offset))
    else dest j

/-- `internal::InvertBitmap(data, offset, length, dest, dest_offset)`:
like `CopyBitmap` but writes the complement of each source bit. -/
def InvertBitmap (data : Bitmap) (offset length : Nat) (dest : Bitmap) (dest_offset : Nat) :
    Bitmap :=
  fun j =>
    if dest_offset ≤ j ∧ j < dest_offset + length then !data (offset + (j - dest_offset))
    else dest j

/-- The fields of `arrow::ArrayData` read by these kernels. `buffers0` is
`buffers[0]`, the optional null-indicator bitmap (bit = 1 means present). -/
structure ArrayData where
  length : Nat
  offset : Nat
  null_count : Int
  buffers0 : Option Bitmap

/-- `Scalar::is_valid`, the only scalar field the kernels read. -/
structure Scalar where
  is_valid : Bool

/-- Element `i` of the container is present: bit `offset + i` of the
indicator bitmap, or unconditionally when the bitmap is absent. -/
def ArrayData.isPresent (arr : ArrayData) (i : Nat) : Bool :=
  match arr.buffers0 with
  | none => true
  | some d => d (arr.offset + i)

/-- Well-formedness of the container (spec §3): when the indicator bitmap is
absent `null_count` is 0; when present, `null_count` counts the absent
elements of the logical window `[offset, offset+length)`. -/
def ArrayData.wfb (arr : ArrayData) : Bool :=
  match arr.buffers0 with
  | none => arr.null_count == 0
  | some d =>
      arr.null_count ==
        (((List.range arr.length).countP (fun i => !d (arr.offset + i)) : Nat) : Int)

/-- The pre-shaped output `ArrayData` handed to the kernel by the engine:
`length`, `offset`, the (unused) `buffers[0]` slot, and the `buffers[1]`
data bitmap (pre-allocated in `PREALLOCATE` mode). -/
structure OutDescr where
  length : Nat
  offset : Nat
  buffers0 : Option Bitmap
  buffers1 : Bitmap

/-- What ends up in `out->buffers[1]` after `IsValidOperator::Call`:
the indicator buffer of the input itself, a `SliceBuffer` view of it
(byte offset and byte size of the slice), or a freshly allocated bitmap. -/
inductive OutBuffer where
  | sharedWhole
  | sharedSlice (byteOffset : Nat) (sizeBytes : Nat)
  | allocated (bits : Bitmap)

/-- Which `return` statement of `IsValidOperator::Call` (array overload)
produced the result: the aliasing return, the `SetBitsTo(..., true)` return,
or the trailing `CopyBitmap` return. -/
inductive ValidReturn where
  | aliasReturn
  | fillReturn
  | copyReturn
deriving DecidableEq

/-- Which branch of `IsNullOperator::Call` (array overload) produced the
result: the `SetBitsTo(..., false)` branch or the `InvertBitmap` branch. -/
inductive NullReturn where
  | fillReturn
  | invertReturn
deriving DecidableEq

/-- The output `ArrayData` produced by `IsValidOperator::Call`, with the
`ret` tag recording the return statement that produced it. -/
structure ValidOut where
  length : Nat
  offset : Nat
  buffers0 : Option Bitmap
  buffers1 : OutBuffer
  ret : ValidReturn

/-- The output `ArrayData` produced by `IsNullOperator::Call`, with the
`ret` tag recording the branch taken. -/
structure NullOut where
  length : Nat
  offset : Nat
  buffers0 : Option Bitmap
  buffers1 : Bitmap
  ret : NullReturn

/-- The slice of `KernelContext` these kernels use: `ctx->AllocateBitmap`,
which returns a fresh bitmap of the requested bit length or fails with an
allocator error of type `ε`. -/
structure KernelContext (ε : Type) where
  allocateBitmap : Nat → Except ε Bitmap

/-- `IsValidOperator::Call(KernelContext*, const Scalar&, Scalar*)`:
the output boolean is the `is_valid` flag of the input. -/
def IsValidOperator.CallScalar (ε : Type) (ctx : KernelContext ε) (s : Scalar) : Bool :=
  s.is_valid

/-- `IsNullOperator::Call(KernelContext*, const Scalar&, Scalar*)`:
the output boolean is the negation of the `is_valid` flag of the input. -/
def IsNullOperator.CallScalar (ε : Type) (ctx : KernelContext ε) (s : Scalar) : Bool :=
  !s.is_valid

/-- `IsValidOperator::Call(KernelContext*, const ArrayData&, ArrayData*)`,
transcribed branch for branch:
```
if (arr.buffers[0] != nullptr) {
  out->buffers[1] = arr.offset == 0
                        ? arr.buffers[0]
                        : SliceBuffer(arr.buffers[0], arr.offset / 8, arr.length / 8);
  out->offset = arr.offset % 8;
  return;
}
KERNEL_RETURN_IF_ERROR(ctx, ctx->AllocateBitmap(out->length).Value(&out->buffers[1]));
if (arr.null_count == 0 || arr.buffers[0] == nullptr) {
  BitUtil::SetBitsTo(out->buffers[1]->mutable_data(), out->offset, out->length, true);
  return;
}
CopyBitmap(arr.buffers[0]->data(), arr.offset, arr.length,
           out->buffers[1]->mutable_data(), out->offset);
```
-/
def IsValidOperator.CallArray (ε : Type) (ctx : KernelContext ε) (arr : ArrayData)
    (out : OutDescr) : Except ε ValidOut :=
  if arr.buffers0.isSome then
    Except.ok
      { length := out.length
        offset := arr.offset % 8
        buffers0 := out.buffers0
        buffers1 :=
          if arr.offset = 0 then OutBuffer.sharedWhole
          else OutBuffer.sharedSlice (arr.offset / 8) (arr.length / 8)
        ret := ValidReturn.aliasReturn }
  else
    match ctx.allocateBitmap out.length with
    | Except.error e => Except.error e
    | Except.ok fresh =>
      if arr.null_count = 0 ∨ arr.buffers0.isNone then
        Except.ok
          { length := out.length
            offset := out.offset
            buffers0 := out.buffers0
            buffers1 := OutBuffer.allocated (SetBitsTo fresh out.offset out.length true)
            ret := ValidReturn.fillReturn }
      else
        Except.ok
          { length := out.length
            offset := out.offset
            buffers0 := out.buffers0
            buffers1 :=
              OutBuffer.allocated
                (CopyBitmap (arr.buffers0.getD (fun _ => false)) arr.offset arr.length
                  fresh out.offset)
            ret := ValidReturn.copyReturn }

/-- `IsNullOperator::Call(KernelContext*, const ArrayData&, ArrayData*)`,
transcribed branch for branch:
```
if (arr.null_count == 0 || arr.buffers[0] == nullptr) {
  BitUtil::SetBitsTo(out->buffers[1]->mutable_data(), out->offset, out->length, false);
  return;
}
InvertBitmap(arr.buffers[0]->data(), arr.offset, arr.length,
             out->buffers[1]->mutable_data(), out->offset);
```
-/
def IsNullOperator.CallArray (ε : Type) (ctx : KernelContext ε) (arr : ArrayData)
    (out : OutDescr) : NullOut :=
  if arr.null_count = 0 ∨ arr.buffers0.isNone then
    { length := out.length
      offset := out.offset
      buffers0 := out.buffers0
      buffers1 := SetBitsTo out.buffers1 out.offset out.length false
      ret := NullReturn.fillReturn }
  else
    { length := out.length
      offset := out.offset
      buffers0 := out.buffers0
      buffers1 :=
        InvertBitmap (arr.buffers0.getD (fun _ => false)) arr.offset arr.length
          out.buffers1 out.offset
      ret := NullReturn.invertReturn }

/-- Resolve a bit of the output buffer against the memory `ind` of the
input indicator buffer: a shared buffer reads the indicator memory (a
`SliceBuffer` view starting at byte `byteOffset` reads bit `8*byteOffset + pos`
of the parent memory), an allocated buffer reads its own bits. -/
def OutBuffer.readBit (b : OutBuffer) (ind : Bitmap) (pos : Nat) : Bool :=
  match b with
  | OutBuffer.sharedWhole => ind pos
  | OutBuffer.sharedSlice byteOffset _ => ind (8 * byteOffset + pos)
  | OutBuffer.allocated bits => bits pos

/-- Logical bit `i` of an `is_valid` output: bit `offset + i` of its
`buffers[1]`, resolved against the input indicator memory. -/
def ValidOut.bitAt (r : ValidOut) (ind : Bitmap) (i : Nat) : Bool :=
  r.buffers1.readBit ind (r.offset + i)

/-- Logical bit `i` of an `is_null` output: bit `offset + i` of its
`buffers[1]`. -/
def NullOut.bitAt (r : NullOut) (i : Nat) : Bool :=
  r.buffers1 (r.offset + i)

/-- The output buffer aliases the indicator buffer of the input, the shared
window starting at byte `byteOffset` of the indicator memory (spec §4.2:
share the indicator buffer starting at byte (offset/8)). -/
def OutBuffer.sharesIndicatorFrom (b : OutBuffer) (byteOffset : Nat) : Prop :=
  match b with
  | OutBuffer.sharedWhole => byteOffset = 0
  | OutBuffer.sharedSlice o _ => o = byteOffset
  | OutBuffer.allocated _ => False

/-- Number of bytes of a `SliceBuffer` view; `none` for a non-slice. -/
def OutBuffer.sliceSizeBytes (b : OutBuffer) : Option Nat :=
  match b with
  | OutBuffer.sharedSlice _ s => some s
  | _ => none

/-- The output buffer is a freshly allocated bitmap (not an alias). -/
def OutBuffer.isAllocated (b : OutBuffer) : Bool :=
  match b with
  | OutBuffer.allocated _ => true
  | _ => false

/-! ## Registration metadata (`MakeFunction`, `RegisterScalarValidity`) -/

/-- `MemAllocation::type` (the two modes used here). -/
inductive MemAllocation where
  | PREALLOCATE
  | NO_PREALLOCATE
deriving DecidableEq

/-- `NullHandling::type` (the mode used here plus the default). -/
inductive NullHandling where
  | INTERSECTION
  | OUTPUT_NOT_NULL
deriving DecidableEq

/-- Input type constraint: both kernels are registered on `ValueDescr::ANY`. -/
inductive InputType where
  | ANY
deriving DecidableEq

/-- Output type: both kernels are registered with output `boolean()`. -/
inductive OutputType where
  | boolean
deriving DecidableEq

/-- Which `ArrayKernelExec` the kernel wraps
(`applicator::SimpleUnary<IsValidOperator>` or
`applicator::SimpleUnary<IsNullOperator>`). -/
inductive ExecKind where
  | simpleUnaryIsValidOp
  | simpleUnaryIsNullOp
deriving DecidableEq

/-- The `ScalarKernel` metadata set by `MakeFunction`. -/
structure ScalarKernelDescr where
  in_types : List InputType
  out_type : OutputType
  exec : ExecKind
  null_handling : NullHandling
  can_write_into_slices : Bool
  mem_allocation : MemAllocation
deriving DecidableEq

/-- A `ScalarFunction` as assembled by `MakeFunction`: name, arity, and its
kernels. -/
structure ScalarFunctionDescr where
  name : String
  arity : Nat
  kernels : List ScalarKernelDescr
deriving DecidableEq

/-- `MakeFunction(name, in_types, out_type, exec, registry, mem_allocation,
can_write_into_slices)`: arity is the number of input types; the kernel is
built with `null_handling = NullHandling::OUTPUT_NOT_NULL` and the given
allocation mode and slice-writability, and added to the function. -/
def MakeFunction (name : String) (in_types : List InputType) (out_type : OutputType)
    (exec : ExecKind) (mem_allocation : MemAllocation) (can_write_into_slices : Bool) :
    ScalarFunctionDescr :=
  { name := name
    arity := in_types.length
    kernels :=
      [{ in_types := in_types
         out_type := out_type
         exec := exec
         null_handling := NullHandling.OUTPUT_NOT_NULL
         can_write_into_slices := can_write_into_slices
         mem_allocation := mem_allocation }] }

/-- `internal::RegisterScalarValidity(FunctionRegistry*)`: the two functions
added to the registry, in order. -/
def RegisterScalarValidity : List ScalarFunctionDescr :=
  [ MakeFunction "is_valid" [InputType.ANY] OutputType.boolean
      ExecKind.simpleUnaryIsValidOp MemAllocation.NO_PREALLOCATE false,
    MakeFunction "is_null" [InputType.ANY] OutputType.boolean
      ExecKind.simpleUnaryIsNullOp MemAllocation.PREALLOCATE true ]

/-! ## Concrete inputs used by the witness theorems -/

/-- Indicator bitmap of spec Example 1: logical bits `[1,0,1,1,0,1,1,0,1,0]`
stored at physical positions `3..12` (ones at 3, 5, 6, 8, 9, 11). -/
def ex1Ind : Bitmap := fun j =>
  j == 3 || j == 5 || j == 6 || j == 8 || j == 9 || j == 11

/-- Example 1 container: length 10, offset 3, 4 absent elements. -/
def ex1Arr : ArrayData :=
  { length := 10, offset := 3, null_count := 4, buffers0 := some ex1Ind }

/-- Output descriptor shaped for `ex1Arr` (offset 0, length 10). -/
def ex1Out : OutDescr :=
  { length := 10, offset := 0, buffers0 := none, buffers1 := fun _ => false }

/-- The `is_valid` output on `ex1Arr`: the aliasing return, slicing the
indicator at byte `3 / 8 = 0` with size `10 / 8 = 1` byte, bit offset 3. -/
def ex1ValidOut : ValidOut :=
  { length := 10, offset := 3, buffers0 := none,
    buffers1 := OutBuffer.sharedSlice 0 1, ret := ValidReturn.aliasReturn }

/-- A kernel context whose allocator always succeeds (zero-filled bitmap). -/
def ctxOk : KernelContext Unit := ⟨fun _ => Except.ok (fun _ => false)⟩

/-- A kernel context whose allocator always reports exhaustion. -/
def ctxFail : KernelContext Unit := ⟨fun _ => Except.error ()⟩

/-- Example 2 container: length 5, no indicator bitmap. -/
def noBitmapArr : ArrayData :=
  { length := 5, offset := 0, null_count := 0, buffers0 := none }

/-- Output descriptor shaped for `noBitmapArr`, destination prefilled with
ones so that overwriting is observable. -/
def out5 : OutDescr :=
  { length := 5, offset := 0, buffers0 := none, buffers1 := fun _ => true }

/-- A byte-aligned container (offset 8) over the Example 1 indicator. -/
def alignedArr : ArrayData :=
  { length := 4, offset := 8, null_count := 1, buffers0 := some ex1Ind }

/-- Output descriptor shaped for `alignedArr`. -/
def out4 : OutDescr :=
  { length := 4, offset := 0, buffers0 := none, buffers1 := fun _ => false }

/-- The `is_valid` output on `alignedArr`: slice at byte `8 / 8 = 1` of size
`4 / 8 = 0` bytes, bit offset `8 % 8 = 0`. -/
def alignedValidOut : ValidOut :=
  { length := 4, offset := 0, buffers0 := none,
    buffers1 := OutBuffer.sharedSlice 1 0, ret := ValidReturn.aliasReturn }

/-- The `is_valid` output on `noBitmapArr` with a zero-filled fresh
allocation: all 5 bits set to true. -/
def synthValidOut : ValidOut :=
  { length := 5, offset := 0, buffers0 := none,
    buffers1 := OutBuffer.allocated (SetBitsTo (fun _ => false) 0 5 true),
    ret := ValidReturn.fillReturn }

/-- An all-ones indicator bitmap (spec Example 3). -/
def onesInd : Bitmap := fun _ => true

/-- An all-zeros indicator bitmap (same shape, different contents). -/
def zerosInd : Bitmap := fun _ => false

/-- Example 3 container: indicator all ones, `null_count` 0. -/
def arrOnes : ArrayData :=
  { length := 5, offset := 0, null_count := 0, buffers0 := some onesInd }

/-- A container like `arrOnes` but with every indicator bit flipped. -/
def arrZeros : ArrayData :=
  { length := 5, offset := 0, null_count := 0, buffers0 := some zerosInd }

/-- An output descriptor with a nonzero destination offset (slice-writable
mode) and a nontrivial prefilled destination, shaped for `ex1Arr`. -/
def outOff2 : OutDescr :=
  { length := 10, offset := 2, buffers0 := none, buffers1 := fun j => j == 0 }

/-! ## Claims -/

/-- C8: for every scalar input, the output boolean of the `is_valid` kernel
equals the `is_valid` flag of the scalar and that of `is_null` equals its
negation, for every kernel context (neither path allocates or fails). -/
theorem C8_scalar_law (ε : Type) (ctx : KernelContext ε) (s : Scalar) :
    IsValidOperator.CallScalar ε ctx s = s.is_valid ∧
    IsNullOperator.CallScalar ε ctx s = !s.is_valid :=
  ⟨rfl, rfl⟩

/-- C9: `RegisterScalarValidity` installs exactly two functions:
`"is_valid"` with arity 1, any input, boolean output, `NO_PREALLOCATE`, not
slice-writable; and `"is_null"` with arity 1, any input, boolean output,
`PREALLOCATE`, slice-writable; both with null handling `OUTPUT_NOT_NULL`. -/
theorem C9_registration_metadata :
    RegisterScalarValidity =
      [ { name := "is_valid", arity := 1,
          kernels := [{ in_types := [InputType.ANY], out_type := OutputType.boolean,
                        exec := ExecKind.simpleUnaryIsValidOp,
                        null_handling := NullHandling.OUTPUT_NOT_NULL,
                        can_write_into_slices := false,
                        mem_allocation := MemAllocation.NO_PREALLOCATE }] },
        { name := "is_null", arity := 1,
          kernels := [{ in_types := [InputType.ANY], out_type := OutputType.boolean,
                        exec := ExecKind.simpleUnaryIsNullOp,
                        null_handling := NullHandling.OUTPUT_NOT_NULL,
                        can_write_into_slices := true,
                        mem_allocation := MemAllocation.PREALLOCATE }] } ] :=
  rfl

/-- C5: in the `is_valid` array kernel the `CopyBitmap` return is unreachable
for every input; when the indicator buffer is present the aliasing return is
taken, and when it is absent every successful call takes the fill-true
return — the aliasing and synthesis paths are mutually exclusive and
exhaustive. -/
theorem C5_copy_branch_unreachable (ε : Type) (ctx : KernelContext ε) (arr : ArrayData)
    (out : OutDescr) :
    (IsValidOperator.CallArray ε ctx arr out).toOption.map ValidOut.ret
        ≠ some ValidReturn.copyReturn ∧
    (arr.buffers0.isSome = true →
      (IsValidOperator.CallArray ε ctx arr out).toOption.map ValidOut.ret
        = some ValidReturn.aliasReturn) ∧
    (arr.buffers0 = none →
      ∀ r, IsValidOperator.CallArray ε ctx arr out = Except.ok r →
        r.ret = ValidReturn.fillReturn) := by
  unfold IsValidOperator.CallArray
  cases hb : arr.buffers0 with
  | some d => simp [Except.toOption]
  | none =>
    cases halloc : ctx.allocateBitmap out.length with
    | error e => simp [halloc, Except.toOption]
    | ok fresh =>
      refine ⟨by simp [halloc, Except.toOption], by simp, ?_⟩
      intro _ r hr
      simp [halloc] at hr
      simp [← hr]

/-- Witness for C5 at the Example 1 container (indicator present): the copy
return is not taken and the aliasing return is. -/
theorem C5_copy_branch_unreachable_witness :
    ex1Arr.buffers0.isSome = true ∧
    (IsValidOperator.CallArray Unit ctxOk ex1Arr ex1Out).toOption.map ValidOut.ret
        ≠ some ValidReturn.copyReturn ∧
    (IsValidOperator.CallArray Unit ctxOk ex1Arr ex1Out).toOption.map ValidOut.ret
        = some ValidReturn.aliasReturn :=
  ⟨rfl, (C5_copy_branch_unreachable Unit ctxOk ex1Arr ex1Out).1,
    (C5_copy_branch_unreachable Unit ctxOk ex1Arr ex1Out).2.1 rfl⟩

/-- C2: for a container with an indicator bitmap and byte-aligned offset, the
`is_valid` array kernel does not consult the allocator (its result is the
same for every kernel context) and never fails; its output buffer aliases the
indicator memory starting at byte `offset / 8`, with output bit offset 0,
and every bit read through the output is the corresponding indicator bit. -/
theorem C2_zero_copy_alias (ε : Type) (ctx ctx2 : KernelContext ε) (arr : ArrayData)
    (out : OutDescr) (hb : arr.buffers0.isSome = true) (hal : arr.offset % 8 = 0) :
    IsValidOperator.CallArray ε ctx arr out = IsValidOperator.CallArray ε ctx2 arr out ∧
    (IsValidOperator.CallArray ε ctx arr out).toOption.isSome = true ∧
    ∀ r, IsValidOperator.CallArray ε ctx arr out = Except.ok r →
      r.offset = 0 ∧ r.buffers1.sharesIndicatorFrom (arr.offset / 8) ∧
      r.ret = ValidReturn.aliasReturn ∧
      ∀ ind, arr.buffers0 = some ind → ∀ i, r.bitAt ind i = ind (arr.offset + i) := by
  unfold IsValidOperator.CallArray
  refine ⟨by simp [hb], by simp [hb, Except.toOption], ?_⟩
  intro r hr
  simp only [hb, if_pos] at hr
  simp only [Except.ok.injEq] at hr
  subst hr
  by_cases ho : arr.offset = 0
  · refine ⟨by simp [hal], by simp [ho, OutBuffer.sharesIndicatorFrom], rfl, ?_⟩
    intro ind hind i
    simp [ValidOut.bitAt, OutBuffer.readBit, ho]
  · refine ⟨by simp [hal], by simp [ho, OutBuffer.sharesIndicatorFrom], rfl, ?_⟩
    intro ind hind i
    have hdm := Nat.div_add_mod arr.offset 8
    simp only [ValidOut.bitAt, OutBuffer.readBit, if_neg ho]
    congr 1
    omega

/-- Witness for C2 at `alignedArr` (offset 8): the call is allocator
independent, succeeds, aliases from byte 1, has bit offset 0, and logical
bit 2 of the output is indicator bit `8 + 2`. -/
theorem C2_zero_copy_alias_witness :
    alignedArr.buffers0.isSome = true ∧ alignedArr.offset % 8 = 0 ∧
    IsValidOperator.CallArray Unit ctxOk alignedArr out4
      = IsValidOperator.CallArray Unit ctxFail alignedArr out4 ∧
    (IsValidOperator.CallArray Unit ctxOk alignedArr out4).toOption.isSome = true ∧
    alignedValidOut.offset = 0 ∧
    alignedValidOut.buffers1.sharesIndicatorFrom (alignedArr.offset / 8) ∧
    alignedValidOut.bitAt ex1Ind 2 = ex1Ind (alignedArr.offset + 2) :=
  have h := C2_zero_copy_alias Unit ctxOk ctxFail alignedArr out4 rfl rfl
  have h3 := h.2.2 alignedValidOut rfl
  ⟨rfl, rfl, h.1, h.2.1, h3.1, h3.2.1, h3.2.2.2 ex1Ind rfl 2⟩

/-- C6: the `is_valid` array kernel is allocator independent and failure free
whenever the indicator bitmap is present (aliasing path); any error it
returns arises with no indicator bitmap (synthesis path) and is exactly the
allocator error for the requested `out.length` bits; the `is_null` array
kernel never consults the allocator and has no failure path. -/
theorem C6_failure_only_allocation (ε : Type) (ctx ctx2 : KernelContext ε)
    (arr : ArrayData) (out : OutDescr) :
    (arr.buffers0.isSome = true →
      IsValidOperator.CallArray ε ctx arr out = IsValidOperator.CallArray ε ctx2 arr out ∧
      (IsValidOperator.CallArray ε ctx arr out).toOption.isSome = true) ∧
    (∀ e, IsValidOperator.CallArray ε ctx arr out = Except.error e →
      arr.buffers0 = none ∧ ctx.allocateBitmap out.length = Except.error e) ∧
    IsNullOperator.CallArray ε ctx arr out = IsNullOperator.CallArray ε ctx2 arr out := by
  refine ⟨?_, ?_, rfl⟩
  · intro hb
    unfold IsValidOperator.CallArray
    exact ⟨by simp [hb], by simp [hb, Except.toOption]⟩
  · intro e he
    unfold IsValidOperator.CallArray at he
    cases hb : arr.buffers0 with
    | some d => simp [hb] at he
    | none =>
      cases halloc : ctx.allocateBitmap out.length with
      | error e2 =>
        simp [hb, halloc] at he
        exact ⟨rfl, congrArg Except.error he⟩
      | ok fresh => simp [hb, halloc] at he

/-- Witness for C6: on `ex1Arr` (indicator present) the call is allocator
independent and succeeds even under the failing allocator, and `is_null` is
allocator independent; on `noBitmapArr` with the failing allocator, the
error is the allocator error. -/
theorem C6_failure_only_allocation_witness :
    ex1Arr.buffers0.isSome = true ∧
    IsValidOperator.CallArray Unit ctxOk ex1Arr ex1Out
      = IsValidOperator.CallArray Unit ctxFail ex1Arr ex1Out ∧
    (IsValidOperator.CallArray Unit ctxOk ex1Arr ex1Out).toOption.isSome = true ∧
    IsNullOperator.CallArray Unit ctxOk ex1Arr ex1Out
      = IsNullOperator.CallArray Unit ctxFail ex1Arr ex1Out ∧
    noBitmapArr.buffers0 = none ∧
    ctxFail.allocateBitmap out5.length = Except.error () :=
  have h := C6_failure_only_allocation Unit ctxOk ctxFail ex1Arr ex1Out
  have h2 := (C6_failure_only_allocation Unit ctxFail ctxOk noBitmapArr out5).2.1 () rfl
  ⟨rfl, (h.1 rfl).1, (h.1 rfl).2, h.2.2, h2.1, h2.2⟩

/-- C7: when the `null_count` of the container is 0 or its indicator bitmap is
absent, the `is_null` array kernel takes the fill-false branch, its output
is identical for any second container agreeing on `null_count` and on
indicator presence (so the indicator bit contents are never read), and the
whole destination window is false. -/
theorem C7_fill_false_noninterference (ε : Type) (ctx : KernelContext ε)
    (arr arr2 : ArrayData) (out : OutDescr)
    (hfast : arr.null_count = 0 ∨ arr.buffers0.isNone = true)
    (hnc : arr2.null_count = arr.null_count)
    (hsome : arr2.buffers0.isSome = arr.buffers0.isSome) :
    (IsNullOperator.CallArray ε ctx arr out).ret = NullReturn.fillReturn ∧
    IsNullOperator.CallArray ε ctx arr out = IsNullOperator.CallArray ε ctx arr2 out ∧
    ∀ i, i < out.length → (IsNullOperator.CallArray ε ctx arr out).bitAt i = false := by
  have hfast2 : arr2.null_count = 0 ∨ arr2.buffers0.isNone = true := by
    rcases hfast with h | h
    · exact Or.inl (hnc.trans h)
    · cases h2 : arr2.buffers0 <;> cases h1 : arr.buffers0 <;> simp_all
  unfold IsNullOperator.CallArray
  rw [if_pos hfast, if_pos hfast2]
  refine ⟨rfl, rfl, ?_⟩
  intro i hi
  simp only [NullOut.bitAt, SetBitsTo]
  split
  · rfl
  · next h => exact absurd ⟨Nat.le_add_right _ _, by omega⟩ h

/-- Witness for C7 at spec Example 3: all-ones indicator with `null_count` 0
versus the same container with every indicator bit flipped — the fill-false
branch is taken, the outputs coincide, and logical bit 2 is false. -/
theorem C7_fill_false_noninterference_witness :
    arrOnes.null_count = 0 ∧
    (IsNullOperator.CallArray Unit ctxOk arrOnes out5).ret = NullReturn.fillReturn ∧
    IsNullOperator.CallArray Unit ctxOk arrOnes out5
      = IsNullOperator.CallArray Unit ctxOk arrZeros out5 ∧
    (IsNullOperator.CallArray Unit ctxOk arrOnes out5).bitAt 2 = false :=
  have h := C7_fill_false_noninterference Unit ctxOk arrOnes arrZeros out5
    (Or.inl rfl) rfl rfl
  ⟨rfl, h.1, h.2.1, h.2.2 2 (by decide)⟩

/-- C10: the `is_null` array kernel leaves the `length`, `offset` and other
buffers of the output descriptor unchanged and writes only into the destination
bitmap; the fill-false branch writes exactly `out.length` bits starting at
`out.offset`, while the invert branch writes exactly `arr.length` bits
there, every bit outside the written window keeping its previous value. -/
theorem C10_is_null_frame (ε : Type) (ctx : KernelContext ε) (arr : ArrayData)
    (out : OutDescr) :
    (IsNullOperator.CallArray ε ctx arr out).length = out.length ∧
    (IsNullOperator.CallArray ε ctx arr out).offset = out.offset ∧
    (IsNullOperator.CallArray ε ctx arr out).buffers0 = out.buffers0 ∧
    ((IsNullOperator.CallArray ε ctx arr out).ret = NullReturn.fillReturn →
      (∀ j, j < out.offset ∨ out.offset + out.length ≤ j →
        (IsNullOperator.CallArray ε ctx arr out).buffers1 j = out.buffers1 j) ∧
      ∀ i, i < out.length →
        (IsNullOperator.CallArray ε ctx arr out).buffers1 (out.offset + i) = false) ∧
    ((IsNullOperator.CallArray ε ctx arr out).ret = NullReturn.invertReturn →
      (∀ j, j < out.offset ∨ out.offset + arr.length ≤ j →
        (IsNullOperator.CallArray ε ctx arr out).buffers1 j = out.buffers1 j) ∧
      ∀ i, i < arr.length →
        (IsNullOperator.CallArray ε ctx arr out).buffers1 (out.offset + i)
          = !(arr.buffers0.getD fun _ => false) (arr.offset + i)) := by
  unfold IsNullOperator.CallArray
  by_cases hc : arr.null_count = 0 ∨ arr.buffers0.isNone = true
  · rw [if_pos hc]
    refine ⟨rfl, rfl, rfl, ?_, ?_⟩
    · intro _
      constructor
      · intro j hj
        simp only [SetBitsTo]
        rw [if_neg]
        omega
      · intro i hi
        simp only [SetBitsTo]
        rw [if_pos]
        exact ⟨Nat.le_add_right _ _, by omega⟩
    · intro h
      exact absurd h (by simp)
  · rw [if_neg hc]
    refine ⟨rfl, rfl, rfl, ?_, ?_⟩
    · intro h
      exact absurd h (by simp)
    · intro _
      constructor
      · intro j hj
        simp only [InvertBitmap]
        rw [if_neg]
        omega
      · intro i hi
        simp only [InvertBitmap]
        rw [if_pos ⟨Nat.le_add_right _ _, by omega⟩]
        rw [Nat.add_sub_cancel_left]

/-- Witness for C10 at `ex1Arr` (invert branch) with destination offset 2:
descriptor fields preserved, the bit below the window keeps its previous
value, and logical bit 1 is the complement of indicator bit `3 + 1`. -/
theorem C10_is_null_frame_witness :
    (IsNullOperator.CallArray Unit ctxOk ex1Arr outOff2).length = outOff2.length ∧
    (IsNullOperator.CallArray Unit ctxOk ex1Arr outOff2).offset = outOff2.offset ∧
    (IsNullOperator.CallArray Unit ctxOk ex1Arr outOff2).buffers0 = outOff2.buffers0 ∧
    (IsNullOperator.CallArray Unit ctxOk ex1Arr outOff2).buffers1 0 = outOff2.buffers1 0 ∧
    (IsNullOperator.CallArray Unit ctxOk ex1Arr outOff2).buffers1 (outOff2.offset + 1)
      = !(ex1Arr.buffers0.getD fun _ => false) (ex1Arr.offset + 1) :=
  have h := C10_is_null_frame Unit ctxOk ex1Arr outOff2
  have hinv := h.2.2.2.2 rfl
  ⟨h.1, h.2.1, h.2.2.1, hinv.1 0 (Or.inl (by decide)), hinv.2 1 (by decide)⟩

/-- C4: for a container with no indicator bitmap the `is_valid` array kernel
succeeds given a successful allocation, returns a freshly allocated buffer
through the fill-true return with all `length` bits set true, and the
`is_null` array kernel fills its whole destination window with false. -/
theorem C4_synthesis_fill (ε : Type) (ctx : KernelContext ε) (arr : ArrayData)
    (out : OutDescr) (fresh : Bitmap)
    (hb : arr.buffers0 = none) (hoff : out.offset = 0) (hlen : out.length = arr.length)
    (halloc : ctx.allocateBitmap out.length = Except.ok fresh) :
    (IsValidOperator.CallArray ε ctx arr out).toOption.isSome = true ∧
    (∀ r, IsValidOperator.CallArray ε ctx arr out = Except.ok r →
      r.ret = ValidReturn.fillReturn ∧ r.buffers1.isAllocated = true ∧
      ∀ i, i < arr.length → r.bitAt (fun _ => false) i = true) ∧
    (IsNullOperator.CallArray ε ctx arr out).ret = NullReturn.fillReturn ∧
    ∀ i, i < out.length → (IsNullOperator.CallArray ε ctx arr out).bitAt i = false := by
  have hvalid : IsValidOperator.CallArray ε ctx arr out =
      Except.ok
        { length := out.length, offset := out.offset, buffers0 := out.buffers0,
          buffers1 := OutBuffer.allocated (SetBitsTo fresh out.offset out.length true),
          ret := ValidReturn.fillReturn } := by
    unfold IsValidOperator.CallArray
    rw [hb]
    simp only [Option.isSome_none, Bool.false_eq_true, if_false, halloc]
    rw [if_pos (Or.inr (by simp [hb]))]
  refine ⟨by simp [hvalid, Except.toOption], ?_, ?_, ?_⟩
  · intro r hr
    rw [hvalid] at hr
    simp only [Except.ok.injEq] at hr
    subst hr
    refine ⟨rfl, rfl, ?_⟩
    intro i hi
    simp only [ValidOut.bitAt, OutBuffer.readBit, SetBitsTo]
    rw [if_pos ⟨Nat.le_add_right _ _, by omega⟩]
  · unfold IsNullOperator.CallArray
    rw [if_pos (Or.inr (by simp [hb]))]
  · intro i hi
    unfold IsNullOperator.CallArray
    rw [if_pos (Or.inr (by simp [hb]))]
    simp only [NullOut.bitAt, SetBitsTo]
    rw [if_pos ⟨Nat.le_add_right _ _, by omega⟩]

/-- Witness for C4 at spec Example 2: length 5, no indicator bitmap — the
fill-true return is taken with a fresh allocation whose logical bit 3 is
true, and `is_null` writes bit 3 of its window to false. -/
theorem C4_synthesis_fill_witness :
    noBitmapArr.buffers0 = none ∧
    (IsValidOperator.CallArray Unit ctxOk noBitmapArr out5).toOption.isSome = true ∧
    synthValidOut.ret = ValidReturn.fillReturn ∧
    synthValidOut.buffers1.isAllocated = true ∧
    synthValidOut.bitAt (fun _ => false) 3 = true ∧
    (IsNullOperator.CallArray Unit ctxOk noBitmapArr out5).ret = NullReturn.fillReturn ∧
    (IsNullOperator.CallArray Unit ctxOk noBitmapArr out5).bitAt 3 = false :=
  have h := C4_synthesis_fill Unit ctxOk noBitmapArr out5 (fun _ => false)
    rfl rfl rfl rfl
  have h2 := h.2.1 synthValidOut rfl
  ⟨rfl, h.1, h2.1, h2.2.1, h2.2.2 3 (by decide), h.2.2.1, h.2.2.2 3 (by decide)⟩

/-- In a well-formed container with `null_count = 0`, every bit of the
indicator window is set (no element is absent). -/
theorem present_of_null_count_zero (arr : ArrayData) (d : Bitmap)
    (hb : arr.buffers0 = some d) (hwf : arr.wfb = true)
    (hnc : arr.null_count = 0) (i : Nat) (hi : i < arr.length) :
    d (arr.offset + i) = true := by
  unfold ArrayData.wfb at hwf
  rw [hb] at hwf
  simp only [beq_iff_eq] at hwf
  have hcount : (List.range arr.length).countP (fun k => !d (arr.offset + k)) = 0 := by
    rw [hnc] at hwf
    exact_mod_cast hwf.symm
  have hall := List.countP_eq_zero.mp hcount i (List.mem_range.mpr hi)
  simpa using hall

/-- The bit read through the aliasing-return record is the indicator bit at
the logical position in the container: slicing at byte `offset / 8` and reading
at bit offset `offset % 8` lands on bit `offset + i` of the indicator. -/
theorem aliasRecord_bitAt (arr : ArrayData) (d : Bitmap) (out : OutDescr) (i : Nat) :
    ValidOut.bitAt
      { length := out.length, offset := arr.offset % 8, buffers0 := out.buffers0,
        buffers1 :=
          if arr.offset = 0 then OutBuffer.sharedWhole
          else OutBuffer.sharedSlice (arr.offset / 8) (arr.length / 8),
        ret := ValidReturn.aliasReturn }
      d i = d (arr.offset + i) := by
  by_cases ho : arr.offset = 0
  · simp [ValidOut.bitAt, OutBuffer.readBit, ho]
  · have hdm := Nat.div_add_mod arr.offset 8
    simp only [ValidOut.bitAt, if_neg ho, OutBuffer.readBit]
    congr 1
    omega

/-- C1: for every well-formed container and every logical position
`i < length`, the bit produced by the `is_valid` array kernel is true iff
element `i` is present, and the bit produced by the `is_null` array kernel
is its negation — for any container offset and length. -/
theorem C1_bitwise_complement (ε : Type) (ctx : KernelContext ε) (arr : ArrayData)
    (out : OutDescr) (r : ValidOut) (i : Nat)
    (hwf : arr.wfb = true) (hlen : out.length = arr.length) (hi : i < arr.length)
    (hr : IsValidOperator.CallArray ε ctx arr out = Except.ok r) :
    r.bitAt (arr.buffers0.getD fun _ => false) i = arr.isPresent i ∧
    (IsNullOperator.CallArray ε ctx arr out).bitAt i
      = !r.bitAt (arr.buffers0.getD fun _ => false) i := by
  cases hb : arr.buffers0 with
  | some d =>
    have hval : IsValidOperator.CallArray ε ctx arr out =
        Except.ok
          { length := out.length, offset := arr.offset % 8, buffers0 := out.buffers0,
            buffers1 :=
              if arr.offset = 0 then OutBuffer.sharedWhole
              else OutBuffer.sharedSlice (arr.offset / 8) (arr.length / 8),
            ret := ValidReturn.aliasReturn } := by
      unfold IsValidOperator.CallArray
      rw [hb]
      simp
    rw [hval] at hr
    have hra := (Except.ok.inj hr).symm
    subst hra
    simp only [Option.getD_some]
    have hbit := aliasRecord_bitAt arr d out i
    have hpres : arr.isPresent i = d (arr.offset + i) := by
      unfold ArrayData.isPresent
      rw [hb]
    refine ⟨hbit.trans hpres.symm, ?_⟩
    by_cases hnc : arr.null_count = 0
    · have hd := present_of_null_count_zero arr d hb hwf hnc i hi
      unfold IsNullOperator.CallArray
      rw [if_pos (Or.inl hnc)]
      simp only [NullOut.bitAt, SetBitsTo]
      rw [if_pos ⟨Nat.le_add_right _ _, by omega⟩]
      rw [hbit, hd]
      rfl
    · unfold IsNullOperator.CallArray
      rw [if_neg]
      · simp only [NullOut.bitAt, InvertBitmap, hb, Option.getD_some]
        rw [if_pos ⟨Nat.le_add_right _ _, by omega⟩]
        rw [Nat.add_sub_cancel_left, hbit]
      · intro h
        rcases h with h | h
        · exact hnc h
        · rw [hb] at h
          simp at h
  | none =>
    have hnc : arr.null_count = 0 := by
      unfold ArrayData.wfb at hwf
      rw [hb] at hwf
      simpa using hwf
    cases halloc : ctx.allocateBitmap out.length with
    | error e =>
      unfold IsValidOperator.CallArray at hr
      rw [hb] at hr
      simp [halloc] at hr
    | ok fresh =>
      have hval : IsValidOperator.CallArray ε ctx arr out =
          Except.ok
            { length := out.length, offset := out.offset, buffers0 := out.buffers0,
              buffers1 :=
                OutBuffer.allocated (SetBitsTo fresh out.offset out.length true),
              ret := ValidReturn.fillReturn } := by
        unfold IsValidOperator.CallArray
        rw [hb]
        simp [halloc]
      rw [hval] at hr
      have hra := (Except.ok.inj hr).symm
      subst hra
      simp only [Option.getD_none]
      have hbit : ValidOut.bitAt
          { length := out.length, offset := out.offset, buffers0 := out.buffers0,
            buffers1 :=
              OutBuffer.allocated (SetBitsTo fresh out.offset out.length true),
            ret := ValidReturn.fillReturn }
          (fun _ => false) i = true := by
        simp only [ValidOut.bitAt, OutBuffer.readBit, SetBitsTo]
        rw [if_pos ⟨Nat.le_add_right _ _, by omega⟩]
      have hpres : arr.isPresent i = true := by
        unfold ArrayData.isPresent
        rw [hb]
      refine ⟨hbit.trans hpres.symm, ?_⟩
      unfold IsNullOperator.CallArray
      rw [if_pos (Or.inl hnc)]
      simp only [NullOut.bitAt, SetBitsTo]
      rw [if_pos ⟨Nat.le_add_right _ _, by omega⟩]
      rw [hbit]
      rfl

/-- Witness for C1 at spec Example 1 (length 10, offset 3, bits
`[1,0,1,1,0,1,1,0,1,0]`), logical position 1 (an absent element). -/
theorem C1_bitwise_complement_witness :
    ex1Arr.wfb = true ∧
    ex1ValidOut.bitAt (ex1Arr.buffers0.getD fun _ => false) 1 = ex1Arr.isPresent 1 ∧
    (IsNullOperator.CallArray Unit ctxOk ex1Arr ex1Out).bitAt 1
      = !ex1ValidOut.bitAt (ex1Arr.buffers0.getD fun _ => false) 1 :=
  have h := C1_bitwise_complement Unit ctxOk ex1Arr ex1Out ex1ValidOut 1
    (by decide) rfl (by decide) rfl
  ⟨by decide, h.1, h.2⟩

/-- C3: at spec Example 1 (length 10, offset 3) the `is_valid` kernel slices
the indicator at byte `3 / 8 = 0` with bit offset 3, but the slice size is
`length / 8 = 1` byte, i.e. 8 bits, which is smaller than the
`offset % 8 + length = 13` bits the output window occupies — the sliced
buffer does not contain all 10 logical bits, contradicting the claim (the
size would have to be at least `⌈(offset % 8 + length) / 8⌉` bytes). -/
theorem C3_slice_byte_truncation :
    IsValidOperator.CallArray Unit ctxFail ex1Arr ex1Out = Except.ok ex1ValidOut ∧
    ex1ValidOut.offset = ex1Arr.offset % 8 ∧
    ex1ValidOut.buffers1.sliceSizeBytes = some (ex1Arr.length / 8) ∧
    8 * (ex1Arr.length / 8) < ex1Arr.offset % 8 + ex1Arr.length :=
  ⟨rfl, rfl, rfl, by decide⟩
